import Mathlib

/-!
Verification of the LLL-TestData-Generator repository.

The repository has two generation modules:
  * `GenerateLocaleTestData.py` — the locale generator (`generate_for_locale`,
    `sanitize_text`, `_tokens_for_kb`, `call_groq` with a tenacity retry
    envelope of `stop_after_attempt(3)`, and a merge-append output write
    guarded by try/except);
  * `TestcaseTokens.py` — the rate-safe generator (`generate_bulk_rate_safe`,
    `call_groq_once` with `stop_after_attempt(4)`, `_tokens_for_kb`, and
    unguarded overwrite output writes).

Strings are modelled as `List Char`, Python floats as `ℚ` (all the arithmetic
the code performs on them — multiplication by 1024, floor division by 4,
comparison against a threshold — is exact on the binary floats involved, so
the rational model is faithful), network effects as explicit outcome-valued
transports indexed by the request counter, and the file system as explicit
arguments/results.
-/

namespace LLLGen

/-! ### Token-budget heuristic

`_tokens_for_kb` appears identically in both modules:
`return max(32, int(kb * 1024 // 4))`.  Python's `//` on numbers is floor
division; `int` applied to the already-integral result is the identity. -/

/-- Python floor division `x // y` on numbers, for `y ≠ 0`. -/
def pyFloorDiv (x y : ℚ) : ℤ := ⌊x / y⌋

/-- `_tokens_for_kb(kb)` from `TestcaseTokens.py` (and the `try` branch of the
variant in `GenerateLocaleTestData.py`): `max(32, int(kb * 1024 // 4))`. -/
def tokensForKb (kb : ℚ) : ℤ := max 32 (pyFloorDiv (kb * 1024) 4)

/-- The spec's heuristic formula, written as the spec words it:
`max(32, floor(kb*1024/4))`. -/
def tokensForKbSpec (kb : ℚ) : ℤ := max 32 ⌊kb * 1024 / 4⌋

/-- `_tokens_for_kb` from `GenerateLocaleTestData.py`: the same arithmetic
wrapped in `try: ... except: return 256`.  A non-numeric argument makes the
arithmetic raise; we model the argument as `Option ℚ`, `none` standing for any
value on which `kb * 1024 // 4` raises, which the bare `except:` catches. -/
def tokensForKbLocale : Option ℚ → ℤ
  | some kb => tokensForKb kb
  | none => 256

/-! ### Sanitization

`sanitize_text(s, max_len=100000)` from `GenerateLocaleTestData.py`:
return `s` unchanged when falsy (empty); strip the control characters
`[\x00-\x08\x0b\x0c\x0e-\x1f]`; when the result is longer than `max_len`,
keep the first `max_len` characters and append `"\n\n...[truncated]"`. -/

/-- A character matched by the control-character class
`[\x00-\x08\x0b\x0c\x0e-\x1f]` in `sanitize_text`. -/
def isStrippedCtrl (c : Char) : Bool :=
  (c.toNat ≤ 8) || (c.toNat == 11) || (c.toNat == 12) ||
    (14 ≤ c.toNat && c.toNat ≤ 31)

/-- The truncation marker `"\n\n...[truncated]"` appended by `sanitize_text`. -/
def truncMarker : List Char := "\n\n...[truncated]".data

/-- `sanitize_text` from `GenerateLocaleTestData.py`, parametrised by
`max_len` (default 100000 at the call site). -/
def sanitizeText (maxLen : Nat) (s : List Char) : List Char :=
  if s.isEmpty then s
  else
    let t := s.filter (fun c => !isStrippedCtrl c)
    if maxLen < t.length then t.take maxLen ++ truncMarker else t

/-! ### Bounded-retry envelope (tenacity)

Both transport calls are wrapped in tenacity's
`retry(..., stop=stop_after_attempt(n), retry=retry_if_exception_type(...))`:
`call_groq` in `GenerateLocaleTestData.py` with `stop_after_attempt(3)`,
`call_groq_once` in `TestcaseTokens.py` with `stop_after_attempt(4)`. -/

/-- One bounded-retry envelope in the style of tenacity's
`stop_after_attempt`: attempts run one at a time; a successful attempt
returns at once; a failing attempt is retried while attempt budget remains,
and the last failure's exception propagates when it runs out.  The result
pairs the total number of underlying calls made with the final outcome;
`transport k` is the outcome of the k-th underlying call (0-based). -/
def attemptLoop (transport : Nat → Except (List Char) (List Char)) :
    Nat → Nat → Nat × Except (List Char) (List Char)
  | 0, calls => (calls, Except.error "stop_after_attempt 0".data)
  | n + 1, calls =>
    match transport calls with
    | Except.ok v => (calls + 1, Except.ok v)
    | Except.error e =>
        if n = 0 then (calls + 1, Except.error e)
        else attemptLoop transport n (calls + 1)

/-- `stop_after_attempt(3)` on `call_groq` in `GenerateLocaleTestData.py`. -/
def callGroqMaxAttempts : Nat := 3

/-- `stop_after_attempt(4)` on `call_groq_once` in `TestcaseTokens.py`. -/
def callGroqOnceMaxAttempts : Nat := 4

/-- The retry envelope around `call_groq` (`GenerateLocaleTestData.py`). -/
def callGroq (transport : Nat → Except (List Char) (List Char)) :
    Nat × Except (List Char) (List Char) :=
  attemptLoop transport callGroqMaxAttempts 0

/-- The retry envelope around `call_groq_once` (`TestcaseTokens.py`). -/
def callGroqOnce (transport : Nat → Except (List Char) (List Char)) :
    Nat × Except (List Char) (List Char) :=
  attemptLoop transport callGroqOnceMaxAttempts 0

/-! ### Startup configuration checks -/

/-- Module-load configuration check of `GenerateLocaleTestData.py`:
`if not GROQ_API_KEY: raise EnvironmentError(...)`.  Only the API key is
inspected; `GROQ_API_URL` is read (and its presence printed) but never
validated.  `none` models an absent — or empty, hence falsy — variable. -/
def startupCheckLocale (groqApiKey : Option (List Char))
    (_groqApiUrl : Option (List Char)) : Except (List Char) Unit :=
  match groqApiKey with
  | none => Except.error "GROQ_API_KEY not found".data
  | some _ => Except.ok ()

/-- Module-load behaviour of `TestcaseTokens.py`: the module prints whether
the key and URL loaded but raises on nothing. -/
def startupCheckRateSafe (_groqApiKey _groqApiUrl : Option (List Char)) :
    Except (List Char) Unit :=
  Except.ok ()

/-! ### The rate-safe generation loop (`TestcaseTokens.py`) -/

/-- A result record appended by `generate_bulk_rate_safe`: a dict with keys
`seed`, `visitor_message`, and — for a failed generation — `error`. -/
structure RateRec where
  seed : List Char
  visitorMessage : Option (List Char)
  error : Option (List Char)
deriving DecidableEq, Repr

/-- The error record `{"seed": s, "visitor_message": None, "error": str(e)}`. -/
def errRec (s e : List Char) : RateRec := ⟨s, none, some e⟩

/-- The success record `{"seed": s, "visitor_message": text}`. -/
def okRec (s text : List Char) : RateRec := ⟨s, some text, none⟩

/-- Outcome of one dispatched `call_groq_once` call, after its retry
envelope: either the envelope exhausted and an exception reached the loop
(`raised`), or a response arrived whose body may or may not parse as JSON
(`isJson`).  `text` is the message text the loop obtains from the response —
`r.text` when the body is not JSON, otherwise the parsed content (the
`output_text` / `choices` shape tolerance with the `json.dumps(resp)`
fallback always yields some text).  `remaining` is the parsed
`x-ratelimit-remaining-tokens` header when present and non-empty. -/
inductive RateOutcome where
  | raised (e : List Char)
  | resp (isJson : Bool) (text : List Char) (remaining : Option ℚ)

/-- The guarded threshold test `if remaining_tokens: ... if remaining_tokens
<= safety_token_threshold`. -/
def lowBudget (remaining : Option ℚ) (threshold : ℚ) : Bool :=
  match remaining with
  | some q => decide (q ≤ threshold)
  | none => false

/-- The (seed, repetition) iteration order of the nested
`for s in seeds: for i in range(per_seed):` loops (shared by both
generators). -/
def seedSchedule : List (List Char) → Nat → List (List Char)
  | [], _ => []
  | s :: rest, perSeed => List.replicate perSeed s ++ seedSchedule rest perSeed

/-- The request loop of `generate_bulk_rate_safe` over the seed schedule,
carrying the accumulator `out` and the count of dispatched requests, and
returning those together with whether the low-budget early `return` was
taken.  Per iteration: an exception appends an error record and continues; a
response whose body is not JSON appends its raw text and — when
`x-ratelimit-remaining-tokens` is present and at or below the threshold —
returns early; a JSON response appends the extracted text and always
continues (a low budget there only triggers the reset-window sleep). -/
def rateLoop (transport : Nat → RateOutcome) (threshold : ℚ) :
    List (List Char) → Nat → List RateRec → List RateRec × Nat × Bool
  | [], reqs, out => (out, reqs, false)
  | s :: rest, reqs, out =>
    match transport reqs with
    | RateOutcome.raised e =>
        rateLoop transport threshold rest (reqs + 1) (out ++ [errRec s e])
    | RateOutcome.resp false text remaining =>
        if lowBudget remaining threshold then (out ++ [okRec s text], reqs + 1, true)
        else rateLoop transport threshold rest (reqs + 1) (out ++ [okRec s text])
    | RateOutcome.resp true text _ =>
        rateLoop transport threshold rest (reqs + 1) (out ++ [okRec s text])

/-- The output write of `generate_bulk_rate_safe` (both the early-return
write and the final write): `open(out_file, "w")` and `json.dump(out, f)` —
the file's previous contents do not participate. -/
def writeRateSafeStore (_existing newBatch : List RateRec) : List RateRec :=
  newBatch

/-- Result of one `generate_bulk_rate_safe` run. -/
structure RateRun where
  /-- What the Python function gives its caller: the `out_file` path on
  success, or the exception propagating from the unguarded write. -/
  result : Except (List Char) (List Char)
  /-- The in-memory accumulator `out` when the function ends. -/
  records : List RateRec
  /-- Loop-level requests dispatched (each one whole retry envelope). -/
  requests : Nat
  /-- Whether the low-budget early `return` was taken. -/
  stoppedEarly : Bool
  /-- Contents of `out_file` after the run; `none` models a failed write. -/
  fileContents : Option (List RateRec)

/-- `generate_bulk_rate_safe(seeds, per_seed, kb, out_file, throttle_delay,
safety_token_threshold)` from `TestcaseTokens.py`.  `existing` is whatever
the output file held before the run; `writeOk` models whether
opening/writing it succeeds — both writes are unguarded, so a failure raises
out of the function. -/
def generateBulkRateSafe (transport : Nat → RateOutcome)
    (seeds : List (List Char)) (perSeed : Nat) (outFile : List Char)
    (threshold : ℚ) (existing : List RateRec) (writeOk : Bool) : RateRun :=
  let r := rateLoop transport threshold (seedSchedule seeds perSeed) 0 []
  if writeOk then
    ⟨Except.ok outFile, r.1, r.2.1, r.2.2, some (writeRateSafeStore existing r.1)⟩
  else
    ⟨Except.error "write failed".data, r.1, r.2.1, r.2.2, none⟩

/-! ### The locale generation loop (`GenerateLocaleTestData.py`) -/

/-- A result record appended by `generate_for_locale`.  The three record
shapes are dicts with different key sets; absent keys are modelled as
`none`: the dry-run record carries `preview`, the error record `error`, and
the success record `visitor_message` with `model` and `tokens_requested`
metadata.  All three carry `seed` and `locale`. -/
structure LocaleRec where
  seed : List Char
  visitorMessage : Option (List Char)
  preview : Option (List Char)
  error : Option (List Char)
  locale : List Char
  modelId : Option (List Char)
  tokensRequested : Option ℤ
deriving DecidableEq, Repr

/-- The dry-run record `{"seed": ..., "visitor_message": None,
"preview": messages[1]["content"][:800], "locale": ...}`. -/
def dryRec (s preview locale : List Char) : LocaleRec :=
  ⟨s, none, some preview, none, locale, none, none⟩

/-- The error record `{"seed": ..., "visitor_message": None,
"error": str(e), "locale": ...}`. -/
def localeErrRec (s e locale : List Char) : LocaleRec :=
  ⟨s, none, none, some e, locale, none, none⟩

/-- The success record `{"seed": ..., "visitor_message": text,
"locale": ..., "model": ..., "tokens_requested": ...}`. -/
def localeOkRec (s text locale modelId : List Char) (tokens : ℤ) : LocaleRec :=
  ⟨s, some text, none, none, locale, some modelId, some tokens⟩

/-- Outcome of one dispatched `call_groq` call, after its retry envelope:
an exception (`raised`), or a response together with the text the loop
extracts from it before sanitization (the `output_text` / `choices` shape
tolerance with the `str(resp)[:200000]` fallback always yields text). -/
inductive LocaleOutcome where
  | raised (e : List Char)
  | success (text : List Char)

/-- The request loop of `generate_for_locale`, carrying the accumulator
`out` and the count of network calls made.  Per (seed, repetition): in
dry-run mode a preview record is appended and no call is dispatched;
otherwise an exception appends an error record and a response appends a
success record with the extracted text sanitized. -/
def localeLoop (transport : Nat → LocaleOutcome) (dryRun : Bool)
    (prompt : List Char → List Char) (locale modelId : List Char)
    (tokens : ℤ) :
    List (List Char) → Nat → List LocaleRec → List LocaleRec × Nat
  | [], calls, out => (out, calls)
  | s :: rest, calls, out =>
    if dryRun then
      localeLoop transport dryRun prompt locale modelId tokens rest calls
        (out ++ [dryRec s ((prompt s).take 800) locale])
    else
      match transport calls with
      | LocaleOutcome.raised e =>
          localeLoop transport dryRun prompt locale modelId tokens rest
            (calls + 1) (out ++ [localeErrRec s e locale])
      | LocaleOutcome.success text =>
          localeLoop transport dryRun prompt locale modelId tokens rest
            (calls + 1)
            (out ++ [localeOkRec s (sanitizeText 100000 text) locale modelId tokens])

/-- The output write of `generate_for_locale`: read the existing records
(`[]` when the file is absent or empty), set `combined = existing + out`,
and dump `combined` — an additive merge. -/
def writeLocaleStore (existing newBatch : List LocaleRec) : List LocaleRec :=
  existing ++ newBatch

/-- Result of one `generate_for_locale` run. -/
structure LocaleRun where
  /-- The list `out` the Python function returns — returned whatever the
  write outcome, thanks to the `try/except` around the write. -/
  result : List LocaleRec
  /-- Network calls dispatched (one per (seed, repetition), 0 in dry-run). -/
  networkCalls : Nat
  /-- Contents of `out_file` after the run: on a successful write, the
  pre-existing records followed by the new batch; `none` when the write
  failed (the failure is printed and swallowed). -/
  fileContents : Option (List LocaleRec)

/-- `generate_for_locale(locale, seeds, per_seed, kb, model, dry_run,
out_file, throttle)` from `GenerateLocaleTestData.py`.  `prompt` abstracts
`build_prompt`'s user message for a seed (out of the spec's scope),
`existing` is whatever the output file held before the run, and `writeOk`
models whether the guarded write succeeds. -/
def generateForLocale (transport : Nat → LocaleOutcome)
    (seeds : List (List Char)) (perSeed : Nat) (locale modelId : List Char)
    (kb : ℚ) (dryRun : Bool) (prompt : List Char → List Char)
    (existing : List LocaleRec) (writeOk : Bool) : LocaleRun :=
  let tokens := tokensForKbLocale (some kb)
  let r := localeLoop transport dryRun prompt locale modelId tokens
    (seedSchedule seeds perSeed) 0 []
  ⟨r.1, r.2, if writeOk then some (writeLocaleStore existing r.1) else none⟩

/-! ## Helper lemmas -/

/-- Unfolding lemma for `sanitizeText` (zeta-reducing its `let`). -/
theorem sanitizeText_eq (maxLen : Nat) (s : List Char) :
    sanitizeText maxLen s =
      if s.isEmpty then s
      else if maxLen < (s.filter (fun c => !isStrippedCtrl c)).length then
        (s.filter (fun c => !isStrippedCtrl c)).take maxLen ++ truncMarker
      else s.filter (fun c => !isStrippedCtrl c) := rfl

/-- Stripping the control-character class twice is the same as once. -/
theorem filter_stripped_idem (s : List Char) :
    (s.filter (fun c => !isStrippedCtrl c)).filter (fun c => !isStrippedCtrl c)
      = s.filter (fun c => !isStrippedCtrl c) :=
  List.filter_eq_self.mpr fun _ ha => (List.mem_filter.mp ha).2

/-- A prefix of an already-stripped string is unchanged by stripping. -/
theorem filter_take_filter (p : Char → Bool) (n : Nat) (s : List Char) :
    ((s.filter p).take n).filter p = (s.filter p).take n :=
  List.filter_eq_self.mpr fun _ ha =>
    (List.mem_filter.mp (List.take_subset n (s.filter p) ha)).2

/-- The truncation marker contains no stripped control characters. -/
theorem truncMarker_filter :
    truncMarker.filter (fun c => !isStrippedCtrl c) = truncMarker := by decide

/-- The seed schedule has one entry per (seed, repetition) pair. -/
theorem seedSchedule_length (seeds : List (List Char)) (perSeed : Nat) :
    (seedSchedule seeds perSeed).length = seeds.length * perSeed := by
  induction seeds with
  | nil => simp [seedSchedule]
  | cons s rest ih =>
      simp only [seedSchedule, List.length_append, List.length_replicate,
        List.length_cons, ih]
      ring

/-! ## C4 -/

/-- C4: the sanitization function is idempotent — for every input string
`x` and every maximum length (100000 at the call site),
`sanitize_text(sanitize_text(x)) == sanitize_text(x)`, including strings
that are truncated and get the truncation marker appended. -/
theorem sanitizeText_idempotent (maxLen : Nat) (s : List Char) :
    sanitizeText maxLen (sanitizeText maxLen s) = sanitizeText maxLen s := by
  by_cases hs : s.isEmpty
  · simp [sanitizeText_eq, hs]
  · rw [sanitizeText_eq maxLen s, if_neg hs]
    by_cases hlen : maxLen < (s.filter (fun c => !isStrippedCtrl c)).length
    · rw [if_pos hlen]
      have htake :
          ((s.filter (fun c => !isStrippedCtrl c)).take maxLen).length = maxLen := by
        rw [List.length_take]
        exact Nat.min_eq_left (Nat.le_of_lt hlen)
      have hne :
          ((s.filter (fun c => !isStrippedCtrl c)).take maxLen
            ++ truncMarker).isEmpty = false := by
        rcases h : (s.filter (fun c => !isStrippedCtrl c)).take maxLen
          ++ truncMarker with _ | _
        · exact absurd (List.append_eq_nil.mp h).2 (by decide)
        · rfl
      have hfilter :
          ((s.filter (fun c => !isStrippedCtrl c)).take maxLen
              ++ truncMarker).filter (fun c => !isStrippedCtrl c)
            = (s.filter (fun c => !isStrippedCtrl c)).take maxLen
              ++ truncMarker := by
        rw [List.filter_append, filter_take_filter, truncMarker_filter]
      have hlen2 :
          maxLen < ((s.filter (fun c => !isStrippedCtrl c)).take maxLen
            ++ truncMarker).length := by
        rw [List.length_append, htake]
        exact Nat.lt_add_of_pos_right (by decide)
      rw [sanitizeText_eq, hne, if_neg Bool.false_ne_true, hfilter,
        if_pos hlen2, List.take_left' htake]
    · rw [if_neg hlen, sanitizeText_eq, filter_stripped_idem]
      by_cases ht : (s.filter fun c => !isStrippedCtrl c).isEmpty
      · rw [if_pos ht]
      · rw [if_neg ht, if_neg hlen]

/-! ## Loop invariants -/

/-- A rate-safe record is a success record or an error record. -/
def RateRec.wellFormed (r : RateRec) : Prop :=
  (r.visitorMessage.isSome = true ∧ r.error = none) ∨
    (r.visitorMessage = none ∧ r.error.isSome = true)

/-- A locale record is a success record or an error record. -/
def LocaleRec.wellFormed (r : LocaleRec) : Prop :=
  (r.visitorMessage.isSome = true ∧ r.error = none) ∨
    (r.visitorMessage = none ∧ r.error.isSome = true)

/-- Membership in a one-element extension of a list. -/
theorem mem_snoc_cases {r x : RateRec} {out : List RateRec}
    (h : r ∈ out ++ [x]) : r ∈ out ∨ r = x := by
  rcases List.mem_append.mp h with h | h
  · exact Or.inl h
  · exact Or.inr (List.mem_singleton.mp h)

/-- Error records are well formed. -/
theorem errRec_wellFormed (s e : List Char) : (errRec s e).wellFormed :=
  Or.inr ⟨rfl, rfl⟩

/-- Success records are well formed. -/
theorem okRec_wellFormed (s t : List Char) : (okRec s t).wellFormed :=
  Or.inl ⟨rfl, rfl⟩

/-- One continuing step of `rateLoop` preserves the no-early-stop
invariant. -/
theorem rateLoop_cons_step (transport : Nat → RateOutcome) (threshold : ℚ)
    (s : List Char) (rest : List (List Char)) (reqs : Nat)
    (out : List RateRec) (x : RateRec) (hseed : x.seed = s)
    (hwf : x.wellFormed)
    (hstep : rateLoop transport threshold (s :: rest) reqs out
      = rateLoop transport threshold rest (reqs + 1) (out ++ [x]))
    (ihall :
      (rateLoop transport threshold rest (reqs + 1) (out ++ [x])).2.2 = false →
        (rateLoop transport threshold rest (reqs + 1) (out ++ [x])).1.map
              (fun r => r.seed)
            = (out ++ [x]).map (fun r => r.seed) ++ rest
          ∧ (rateLoop transport threshold rest (reqs + 1) (out ++ [x])).2.1
              = (reqs + 1) + rest.length
          ∧ ∀ r ∈ (rateLoop transport threshold rest (reqs + 1) (out ++ [x])).1,
              r ∈ out ++ [x] ∨ r.wellFormed)
    (h : (rateLoop transport threshold (s :: rest) reqs out).2.2 = false) :
    (rateLoop transport threshold (s :: rest) reqs out).1.map (fun r => r.seed)
        = out.map (fun r => r.seed) ++ s :: rest
      ∧ (rateLoop transport threshold (s :: rest) reqs out).2.1
          = reqs + (s :: rest).length
      ∧ ∀ r ∈ (rateLoop transport threshold (s :: rest) reqs out).1,
          r ∈ out ∨ r.wellFormed := by
  rw [hstep] at h ⊢
  obtain ⟨h1, h2, h3⟩ := ihall h
  refine ⟨?_, ?_, ?_⟩
  · rw [h1, List.map_append]
    simp [hseed]
  · rw [h2]
    simp only [List.length_cons]
    omega
  · intro r hr
    rcases h3 r hr with hmem | hwfr
    · rcases mem_snoc_cases hmem with hout | hx
      · exact Or.inl hout
      · rw [hx]; exact Or.inr hwf
    · exact Or.inr hwfr

/-- Invariant of `rateLoop` on runs that do not take the early return: the
accumulated records extend the accumulator by exactly one record per
scheduled seed instance, tagged in schedule order; the request count grows
by the schedule length; and every new record is well formed. -/
theorem rateLoop_no_early_stop (transport : Nat → RateOutcome)
    (threshold : ℚ) :
    ∀ (sched : List (List Char)) (reqs : Nat) (out : List RateRec),
      (rateLoop transport threshold sched reqs out).2.2 = false →
        (rateLoop transport threshold sched reqs out).1.map (fun r => r.seed)
            = out.map (fun r => r.seed) ++ sched
          ∧ (rateLoop transport threshold sched reqs out).2.1
              = reqs + sched.length
          ∧ ∀ r ∈ (rateLoop transport threshold sched reqs out).1,
              r ∈ out ∨ r.wellFormed := by
  intro sched
  induction sched with
  | nil =>
      intro reqs out _
      refine ⟨by simp [rateLoop], by simp [rateLoop], ?_⟩
      intro r hr
      exact Or.inl (by simpa [rateLoop] using hr)
  | cons s rest ih =>
      intro reqs out h
      cases htr : transport reqs with
      | raised e =>
          exact rateLoop_cons_step transport threshold s rest reqs out
            (errRec s e) rfl (errRec_wellFormed s e)
            (by simp only [rateLoop]; rw [htr]) (ih (reqs + 1) _) h
      | resp isJson text remaining =>
          cases isJson with
          | false =>
              cases hlb : lowBudget remaining threshold with
              | true =>
                  have hstop :
                      (rateLoop transport threshold (s :: rest) reqs out).2.2
                        = true := by
                    simp only [rateLoop]; rw [htr]; simp [hlb]
                  rw [hstop] at h
                  simp at h
              | false =>
                  exact rateLoop_cons_step transport threshold s rest reqs out
                    (okRec s text) rfl (okRec_wellFormed s text)
                    (by simp only [rateLoop]; rw [htr]; simp [hlb])
                    (ih (reqs + 1) _) h
          | true =>
              exact rateLoop_cons_step transport threshold s rest reqs out
                (okRec s text) rfl (okRec_wellFormed s text)
                (by simp only [rateLoop]; rw [htr]) (ih (reqs + 1) _) h

/-- Membership in a one-element extension of a locale record list. -/
theorem mem_snoc_cases_locale {r x : LocaleRec} {out : List LocaleRec}
    (h : r ∈ out ++ [x]) : r ∈ out ∨ r = x := by
  rcases List.mem_append.mp h with h | h
  · exact Or.inl h
  · exact Or.inr (List.mem_singleton.mp h)

/-- `localeLoop` in dry-run mode: it appends exactly one preview record per
scheduled seed instance, in order, and never touches the transport. -/
theorem localeLoop_dry (transport : Nat → LocaleOutcome)
    (prompt : List Char → List Char) (locale modelId : List Char)
    (tokens : ℤ) :
    ∀ (sched : List (List Char)) (calls : Nat) (out : List LocaleRec),
      (localeLoop transport true prompt locale modelId tokens sched calls out).1
          = out ++ sched.map (fun s => dryRec s ((prompt s).take 800) locale)
        ∧ (localeLoop transport true prompt locale modelId tokens
            sched calls out).2 = calls := by
  intro sched
  induction sched with
  | nil => intro calls out; simp [localeLoop]
  | cons s rest ih =>
      intro calls out
      obtain ⟨h1, h2⟩ := ih calls (out ++ [dryRec s ((prompt s).take 800) locale])
      refine ⟨?_, ?_⟩
      · rw [show (localeLoop transport true prompt locale modelId tokens
            (s :: rest) calls out).1
            = (localeLoop transport true prompt locale modelId tokens rest
              calls (out ++ [dryRec s ((prompt s).take 800) locale])).1 from by
          simp [localeLoop], h1]
        simp
      · rw [show (localeLoop transport true prompt locale modelId tokens
            (s :: rest) calls out).2
            = (localeLoop transport true prompt locale modelId tokens rest
              calls (out ++ [dryRec s ((prompt s).take 800) locale])).2 from by
          simp [localeLoop], h2]

/-- Invariant of `localeLoop` outside dry-run mode: one record per scheduled
seed instance, tagged in schedule order, one network call per instance, and
every new record is a success or error record. -/
theorem localeLoop_live (transport : Nat → LocaleOutcome)
    (prompt : List Char → List Char) (locale modelId : List Char)
    (tokens : ℤ) :
    ∀ (sched : List (List Char)) (calls : Nat) (out : List LocaleRec),
      (localeLoop transport false prompt locale modelId tokens
            sched calls out).1.map (fun r => r.seed)
          = out.map (fun r => r.seed) ++ sched
        ∧ (localeLoop transport false prompt locale modelId tokens
            sched calls out).2 = calls + sched.length
        ∧ ∀ r ∈ (localeLoop transport false prompt locale modelId tokens
            sched calls out).1, r ∈ out ∨ r.wellFormed := by
  intro sched
  induction sched with
  | nil =>
      intro calls out
      refine ⟨by simp [localeLoop], by simp [localeLoop], ?_⟩
      intro r hr
      exact Or.inl (by simpa [localeLoop] using hr)
  | cons s rest ih =>
      intro calls out
      have hfin : ∀ (x : LocaleRec), x.seed = s → x.wellFormed →
          (localeLoop transport false prompt locale modelId tokens
              (s :: rest) calls out)
            = localeLoop transport false prompt locale modelId tokens rest
              (calls + 1) (out ++ [x]) →
          (localeLoop transport false prompt locale modelId tokens
              (s :: rest) calls out).1.map (fun r => r.seed)
              = out.map (fun r => r.seed) ++ s :: rest
            ∧ (localeLoop transport false prompt locale modelId tokens
                (s :: rest) calls out).2 = calls + (s :: rest).length
            ∧ ∀ r ∈ (localeLoop transport false prompt locale modelId tokens
                (s :: rest) calls out).1, r ∈ out ∨ r.wellFormed := by
        intro x hseed hwf hstep
        obtain ⟨h1, h2, h3⟩ := ih (calls + 1) (out ++ [x])
        rw [hstep]
        refine ⟨?_, ?_, ?_⟩
        · rw [h1, List.map_append]
          simp [hseed]
        · rw [h2]
          simp only [List.length_cons]
          omega
        · intro r hr
          rcases h3 r hr with hmem | hwfr
          · rcases mem_snoc_cases_locale hmem with hout | hx
            · exact Or.inl hout
            · rw [hx]; exact Or.inr hwf
          · exact Or.inr hwfr
      cases htr : transport calls with
      | raised e =>
          exact hfin (localeErrRec s e locale) rfl (Or.inr ⟨rfl, rfl⟩)
            (by simp only [localeLoop]; rw [htr]; simp)
      | success text =>
          exact hfin
            (localeOkRec s (sanitizeText 100000 text) locale modelId tokens)
            rfl (Or.inl ⟨rfl, rfl⟩)
            (by simp only [localeLoop]; rw [htr]; simp)

/-- The loop-derived components of a `generate_bulk_rate_safe` run do not
depend on the write outcome. -/
theorem generateBulkRateSafe_components (transport : Nat → RateOutcome)
    (seeds : List (List Char)) (perSeed : Nat) (outFile : List Char)
    (threshold : ℚ) (existing : List RateRec) (writeOk : Bool) :
    (generateBulkRateSafe transport seeds perSeed outFile threshold existing
        writeOk).records
      = (rateLoop transport threshold (seedSchedule seeds perSeed) 0 []).1
    ∧ (generateBulkRateSafe transport seeds perSeed outFile threshold existing
        writeOk).requests
      = (rateLoop transport threshold (seedSchedule seeds perSeed) 0 []).2.1
    ∧ (generateBulkRateSafe transport seeds perSeed outFile threshold existing
        writeOk).stoppedEarly
      = (rateLoop transport threshold (seedSchedule seeds perSeed) 0 []).2.2 := by
  cases writeOk <;> exact ⟨rfl, rfl, rfl⟩

/-! ## The claims -/

/-- C1 (code bug, evaluated at the failing input): a run of two planned
requests whose responses are valid-JSON bodies marked with a remaining-token
budget of 0 — at or below the safety threshold of 200 — dispatches both
requests and never takes the early-stop path, because the low-budget early
return exists only in the branch where the response body fails to parse as
JSON; the contrasting run whose identical responses are non-JSON bodies does
stop after exactly 1 of the 2 requests with exactly 1 record.  This
contradicts the claim and the function's own docstring
(`safety_token_threshold: stop if x-ratelimit-remaining-tokens <= threshold`). -/
theorem rateBudget_low_json_body_never_stops :
    ((generateBulkRateSafe (fun _ => RateOutcome.resp true "m".data (some 0))
        ["a".data] 2 "f".data 200 [] true).requests = 2
      ∧ (generateBulkRateSafe (fun _ => RateOutcome.resp true "m".data (some 0))
        ["a".data] 2 "f".data 200 [] true).stoppedEarly = false
      ∧ (generateBulkRateSafe (fun _ => RateOutcome.resp true "m".data (some 0))
        ["a".data] 2 "f".data 200 [] true).records.length = 2)
    ∧ ((generateBulkRateSafe (fun _ => RateOutcome.resp false "m".data (some 0))
        ["a".data] 2 "f".data 200 [] true).requests = 1
      ∧ (generateBulkRateSafe (fun _ => RateOutcome.resp false "m".data (some 0))
        ["a".data] 2 "f".data 200 [] true).stoppedEarly = true
      ∧ (generateBulkRateSafe (fun _ => RateOutcome.resp false "m".data (some 0))
        ["a".data] 2 "f".data 200 [] true).records.length = 1) := by
  exact ⟨⟨rfl, rfl, rfl⟩, ⟨by decide, by decide, by decide⟩⟩

/-- C2: for every seed list S and repetition count R, a run not terminated
early by the rate-budget signal appends exactly one result record per
(seed, repetition) pair — a success record or an error record, so a single
failed generation never aborts the batch — producing exactly
`len(S) × R` records, each tagged with its originating seed; this holds for
both generators. -/
theorem completed_run_record_counts
    (rtransport : Nat → RateOutcome) (seeds : List (List Char))
    (perSeed : Nat) (outFile : List Char) (threshold : ℚ)
    (rexisting : List RateRec) (rwriteOk : Bool)
    (ltransport : Nat → LocaleOutcome) (locale modelId : List Char) (kb : ℚ)
    (prompt : List Char → List Char) (lexisting : List LocaleRec)
    (lwriteOk : Bool)
    (hnoearly : (generateBulkRateSafe rtransport seeds perSeed outFile
      threshold rexisting rwriteOk).stoppedEarly = false) :
    ((generateBulkRateSafe rtransport seeds perSeed outFile threshold
          rexisting rwriteOk).records.length = seeds.length * perSeed
      ∧ (generateBulkRateSafe rtransport seeds perSeed outFile threshold
          rexisting rwriteOk).records.map (fun r => r.seed)
          = seedSchedule seeds perSeed
      ∧ ∀ r ∈ (generateBulkRateSafe rtransport seeds perSeed outFile
          threshold rexisting rwriteOk).records, r.wellFormed)
    ∧ ((generateForLocale ltransport seeds perSeed locale modelId kb false
          prompt lexisting lwriteOk).result.length = seeds.length * perSeed
      ∧ (generateForLocale ltransport seeds perSeed locale modelId kb false
          prompt lexisting lwriteOk).result.map (fun r => r.seed)
          = seedSchedule seeds perSeed
      ∧ ∀ r ∈ (generateForLocale ltransport seeds perSeed locale modelId kb
          false prompt lexisting lwriteOk).result, r.wellFormed) := by
  obtain ⟨hrec, _, hstop⟩ := generateBulkRateSafe_components rtransport seeds
    perSeed outFile threshold rexisting rwriteOk
  rw [hstop] at hnoearly
  obtain ⟨r1, _, r3⟩ := rateLoop_no_early_stop rtransport threshold
    (seedSchedule seeds perSeed) 0 [] hnoearly
  obtain ⟨l1, _, l3⟩ := localeLoop_live ltransport prompt locale modelId
    (tokensForKbLocale (some kb)) (seedSchedule seeds perSeed) 0 []
  simp only [List.map_nil, List.nil_append] at r1 l1
  refine ⟨⟨?_, ?_, ?_⟩, ⟨?_, ?_, ?_⟩⟩
  · have hre := congrArg List.length r1
    rw [List.length_map, seedSchedule_length] at hre
    rw [hrec]
    exact hre
  · rw [hrec, r1]
  · intro r hr
    rw [hrec] at hr
    rcases r3 r hr with hmem | hwf
    · exact absurd hmem (List.not_mem_nil r)
    · exact hwf
  · have hle := congrArg List.length l1
    rw [List.length_map, seedSchedule_length] at hle
    exact hle
  · exact l1
  · intro r hr
    rcases l3 r hr with hmem | hwf
    · exact absurd hmem (List.not_mem_nil r)
    · exact hwf

/-- Witness for C2: a concrete single-seed, single-repetition run with no
early stop. -/
theorem completed_run_record_counts_witness :
    ((generateBulkRateSafe (fun _ => RateOutcome.raised "boom".data)
        ["a".data] 1 "f".data 200 [] true).stoppedEarly = false)
    ∧ (((generateBulkRateSafe (fun _ => RateOutcome.raised "boom".data)
          ["a".data] 1 "f".data 200 [] true).records.length
          = ["a".data].length * 1
        ∧ (generateBulkRateSafe (fun _ => RateOutcome.raised "boom".data)
          ["a".data] 1 "f".data 200 [] true).records.map (fun r => r.seed)
          = seedSchedule ["a".data] 1
        ∧ ∀ r ∈ (generateBulkRateSafe (fun _ => RateOutcome.raised "boom".data)
          ["a".data] 1 "f".data 200 [] true).records, r.wellFormed)
      ∧ ((generateForLocale (fun _ => LocaleOutcome.success "hi".data)
          ["a".data] 1 "en-US".data "mod".data 1 false (fun s => s) []
          true).result.length = ["a".data].length * 1
        ∧ (generateForLocale (fun _ => LocaleOutcome.success "hi".data)
          ["a".data] 1 "en-US".data "mod".data 1 false (fun s => s) []
          true).result.map (fun r => r.seed) = seedSchedule ["a".data] 1
        ∧ ∀ r ∈ (generateForLocale (fun _ => LocaleOutcome.success "hi".data)
          ["a".data] 1 "en-US".data "mod".data 1 false (fun s => s) []
          true).result, r.wellFormed)) :=
  ⟨rfl, completed_run_record_counts (fun _ => RateOutcome.raised "boom".data)
    ["a".data] 1 "f".data 200 [] true
    (fun _ => LocaleOutcome.success "hi".data) "en-US".data "mod".data 1
    (fun s => s) [] true rfl⟩

/-- C3 counterexample: writing a batch of 1 new record with
`generate_bulk_rate_safe`'s store write to a store already holding 1 record
yields 1 record — the new batch alone — not the 2 records the claim
requires, with the pre-existing record first. -/
theorem rateSafe_store_write_not_additive :
    (writeRateSafeStore [okRec "a".data "m1".data]
        [okRec "b".data "m2".data]).length ≠ 1 + 1
      ∧ writeRateSafeStore [okRec "a".data "m1".data]
          [okRec "b".data "m2".data]
        ≠ [okRec "a".data "m1".data] ++ [okRec "b".data "m2".data] := by
  exact ⟨by decide, by decide⟩

/-- C3 amended: the additive-merge invariant holds for the locale
generator's store write — the resulting store is exactly the N pre-existing
records, first and in their original order, followed by the M new records
in generation order, N+M in total — while the rate-safe generator's store
write instead replaces the store with exactly the new batch. -/
theorem store_write_merge (lexisting lnew : List LocaleRec)
    (rexisting rnew : List RateRec) :
    writeLocaleStore lexisting lnew = lexisting ++ lnew
      ∧ (writeLocaleStore lexisting lnew).length
          = lexisting.length + lnew.length
      ∧ lexisting <+: writeLocaleStore lexisting lnew
      ∧ writeRateSafeStore rexisting rnew = rnew :=
  ⟨rfl, List.length_append _ _, ⟨lnew, rfl⟩, rfl⟩

/-- `attemptLoop` against an always-failing transport makes exactly its
attempt budget of underlying calls and ends in an error. -/
theorem attemptLoop_always_fails
    (transport : Nat → Except (List Char) (List Char))
    (h : ∀ k, (transport k).isOk = false) :
    ∀ (n calls : Nat), (attemptLoop transport n calls).1 = calls + n
      ∧ (attemptLoop transport n calls).2.isOk = false := by
  intro n
  induction n with
  | zero => intro calls; exact ⟨rfl, rfl⟩
  | succ m ih =>
      intro calls
      rcases he : transport calls with e | v
      · cases m with
        | zero =>
            exact ⟨by simp [attemptLoop, he],
              by simp [attemptLoop, he, Except.isOk, Except.toBool]⟩
        | succ k =>
            have hstep : attemptLoop transport (k + 1 + 1) calls
                = attemptLoop transport (k + 1) (calls + 1) := by
              simp [attemptLoop, he]
            obtain ⟨ih1, ih2⟩ := ih (calls + 1)
            rw [hstep]
            exact ⟨by rw [ih1]; omega, ih2⟩
      · exact absurd (h calls) (by simp [he, Except.isOk, Except.toBool])

/-- C5: against a transport that fails on every attempt, each bounded-retry
envelope makes exactly its configured maximum attempt count of underlying
calls — no more — before ending in the error the enclosing loop records as
an error result: 3 for `call_groq` and 4 for `call_groq_once`, both of
which lie in the range 3–4. -/
theorem retry_envelope_bound
    (t1 t2 : Nat → Except (List Char) (List Char))
    (h1 : ∀ k, (t1 k).isOk = false) (h2 : ∀ k, (t2 k).isOk = false) :
    (callGroq t1).1 = callGroqMaxAttempts
      ∧ (callGroq t1).2.isOk = false
      ∧ (callGroqOnce t2).1 = callGroqOnceMaxAttempts
      ∧ (callGroqOnce t2).2.isOk = false
      ∧ 3 ≤ callGroqMaxAttempts ∧ callGroqMaxAttempts ≤ 4
      ∧ 3 ≤ callGroqOnceMaxAttempts ∧ callGroqOnceMaxAttempts ≤ 4 := by
  obtain ⟨a1, a2⟩ := attemptLoop_always_fails t1 h1 callGroqMaxAttempts 0
  obtain ⟨b1, b2⟩ := attemptLoop_always_fails t2 h2 callGroqOnceMaxAttempts 0
  exact ⟨by simpa [callGroq] using a1, a2,
    by simpa [callGroqOnce] using b1, b2,
    by decide, by decide, by decide, by decide⟩

/-- Witness for C5: the transport that raises on every call. -/
theorem retry_envelope_bound_witness :
    ((∀ k, ((fun _ : Nat =>
        (Except.error "boom".data : Except (List Char) (List Char))) k).isOk
          = false)
      ∧ (∀ k, ((fun _ : Nat =>
        (Except.error "boom".data : Except (List Char) (List Char))) k).isOk
          = false))
    ∧ ((callGroq fun _ => Except.error "boom".data).1 = callGroqMaxAttempts
      ∧ (callGroq fun _ => Except.error "boom".data).2.isOk = false
      ∧ (callGroqOnce fun _ => Except.error "boom".data).1
          = callGroqOnceMaxAttempts
      ∧ (callGroqOnce fun _ => Except.error "boom".data).2.isOk = false
      ∧ 3 ≤ callGroqMaxAttempts ∧ callGroqMaxAttempts ≤ 4
      ∧ 3 ≤ callGroqOnceMaxAttempts ∧ callGroqOnceMaxAttempts ≤ 4) :=
  ⟨⟨fun _ => rfl, fun _ => rfl⟩,
    retry_envelope_bound _ _ (fun _ => rfl) (fun _ => rfl)⟩

/-- C6 counterexample: with a failing output write,
`generate_bulk_rate_safe` raises out of the function instead of reporting
the failure and returning the in-memory records; moreover even a successful
run returns the output path, not the record list. -/
theorem rateSafe_write_failure_crashes :
    (generateBulkRateSafe (fun _ => RateOutcome.raised "e".data)
        ["a".data] 1 "f".data 200 [] false).result
      = Except.error "write failed".data
      ∧ (generateBulkRateSafe (fun _ => RateOutcome.raised "e".data)
        ["a".data] 1 "f".data 200 [] true).result = Except.ok "f".data :=
  ⟨rfl, rfl⟩

/-- C6 amended: in `generate_for_locale` an output-write failure is reported
but swallowed and the full in-memory record list is still returned — the
returned list does not depend on the write outcome and always equals the
loop's accumulator — whereas in `generate_bulk_rate_safe` a write failure
propagates out of the function. -/
theorem write_failure_containment (ltransport : Nat → LocaleOutcome)
    (seeds : List (List Char)) (perSeed : Nat) (locale modelId : List Char)
    (kb : ℚ) (dryRun : Bool) (prompt : List Char → List Char)
    (lexisting : List LocaleRec) (writeOk : Bool)
    (rtransport : Nat → RateOutcome) (outFile : List Char) (threshold : ℚ)
    (rexisting : List RateRec) :
    (generateForLocale ltransport seeds perSeed locale modelId kb dryRun
        prompt lexisting writeOk).result
      = (generateForLocale ltransport seeds perSeed locale modelId kb dryRun
        prompt lexisting true).result
      ∧ (generateForLocale ltransport seeds perSeed locale modelId kb dryRun
          prompt lexisting writeOk).result
        = (localeLoop ltransport dryRun prompt locale modelId
          (tokensForKbLocale (some kb)) (seedSchedule seeds perSeed) 0 []).1
      ∧ (generateBulkRateSafe rtransport seeds perSeed outFile threshold
          rexisting false).result = Except.error "write failed".data :=
  ⟨rfl, rfl, rfl⟩

/-- C7 counterexample: a configuration whose endpoint URL is absent but
whose credential is present passes the locale module's startup check, and
the rate-safe module's startup raises nothing even with both absent — the
program does not fail fatally at startup in these configurations. -/
theorem startup_missing_url_not_fatal :
    startupCheckLocale (some "key".data) none = Except.ok ()
      ∧ startupCheckRateSafe none none = Except.ok () :=
  ⟨rfl, rfl⟩

/-- C7 amended: only an absent (or empty, hence falsy) API credential, and
only in the locale generator module, is fatal at module load — before any
request is attempted; the endpoint URL is never validated at startup, and
the rate-safe module validates neither setting. -/
theorem startup_check_credential_only (url : Option (List Char)) :
    startupCheckLocale none url = Except.error "GROQ_API_KEY not found".data
      ∧ (∀ key, startupCheckLocale (some key) url = Except.ok ())
      ∧ ∀ key u, startupCheckRateSafe key u = Except.ok () :=
  ⟨rfl, fun _ => rfl, fun _ _ => rfl⟩

/-- C8: for every kb ≥ 0 the token-budget heuristic satisfies
`tokens_for_kb(kb) == max(32, floor(kb * 1024 / 4))`; in particular
`tokens_for_kb(1) == 256`. -/
theorem tokensForKb_formula (kb : ℚ) (_hkb : 0 ≤ kb) :
    tokensForKb kb = tokensForKbSpec kb ∧ tokensForKb 1 = 256 := by
  refine ⟨rfl, ?_⟩
  norm_num [tokensForKb, pyFloorDiv]

/-- Witness for C8 at kb = 1. -/
theorem tokensForKb_formula_witness :
    (0 : ℚ) ≤ 1 ∧ (tokensForKb 1 = tokensForKbSpec 1 ∧ tokensForKb 1 = 256) :=
  ⟨by decide, tokensForKb_formula 1 (by decide)⟩

/-- C9: for every seed list S and repetition count R, a dry run issues zero
network calls and produces exactly `len(S) × R` records, each carrying a
preview field and neither a populated visitor message nor an error. -/
theorem dry_run_no_network (transport : Nat → LocaleOutcome)
    (seeds : List (List Char)) (perSeed : Nat) (locale modelId : List Char)
    (kb : ℚ) (prompt : List Char → List Char) (existing : List LocaleRec)
    (writeOk : Bool) :
    (generateForLocale transport seeds perSeed locale modelId kb true prompt
        existing writeOk).networkCalls = 0
      ∧ (generateForLocale transport seeds perSeed locale modelId kb true
          prompt existing writeOk).result.length = seeds.length * perSeed
      ∧ ∀ r ∈ (generateForLocale transport seeds perSeed locale modelId kb
          true prompt existing writeOk).result,
          r.preview.isSome = true ∧ r.visitorMessage = none
            ∧ r.error = none := by
  obtain ⟨h1, h2⟩ := localeLoop_dry transport prompt locale modelId
    (tokensForKbLocale (some kb)) (seedSchedule seeds perSeed) 0 []
  refine ⟨h2, ?_, ?_⟩
  · rw [show (generateForLocale transport seeds perSeed locale modelId kb
        true prompt existing writeOk).result
        = (localeLoop transport true prompt locale modelId
          (tokensForKbLocale (some kb)) (seedSchedule seeds perSeed) 0 []).1
        from rfl, h1]
    simp [seedSchedule_length]
  · intro r hr
    rw [show (generateForLocale transport seeds perSeed locale modelId kb
        true prompt existing writeOk).result
        = (localeLoop transport true prompt locale modelId
          (tokensForKbLocale (some kb)) (seedSchedule seeds perSeed) 0 []).1
        from rfl, h1] at hr
    simp only [List.nil_append, List.mem_map] at hr
    obtain ⟨s, _, hs⟩ := hr
    rw [← hs]
    exact ⟨rfl, rfl, rfl⟩

/-- C10: the locale generator's `_tokens_for_kb` is total — every argument
yields an integer: the heuristic value on a numeric argument, and 256 on
any argument whose arithmetic raises, caught by the bare `except:` rather
than propagated. -/
theorem tokensForKbLocale_total (v : Option ℚ) :
    ∃ n : ℤ, tokensForKbLocale v = n
      ∧ (v = none → n = 256)
      ∧ ∀ kb : ℚ, v = some kb → n = max 32 ⌊kb * 1024 / 4⌋ := by
  cases v with
  | none =>
      refine ⟨256, rfl, fun _ => rfl, ?_⟩
      intro kb hkb
      exact absurd hkb (by simp)
  | some kb =>
      refine ⟨max 32 ⌊kb * 1024 / 4⌋, rfl, by simp, ?_⟩
      intro kb' hkb
      rw [Option.some_inj.mp hkb]

end LLLGen
